import Mathlib

/-!
Verification of the role-based access model, the email-validation flow and
the user-name helper of the `ts-advanced` repository, shallowly embedded in
Lean 4.  Roles and actions are the closed literal unions of the source; the
permission table and the lookup follow `src/unnamed/part_002`, the duplicate
in `src/exercises/02-roleBasedAccess.exercise.ts` is embedded separately for
the equivalence claim.
-/

namespace TS

/-- The closed role set `keyof typeof userAccessModel`. -/
inductive Role where
  | user
  | admin
  | anonymous
deriving DecidableEq, Repr

/-- The closed action set `typeof userAccessModel[Role][number]`:
the literal union of every entry of every role. -/
inductive UserAction where
  | create
  | updateSelf
  | updateAny
  | delete
  | view
deriving DecidableEq, Repr

/-- The `userAccessModel` const object of `src/unnamed/part_002`:
an immutable mapping from each role to its list of allowed actions. -/
def userAccessModel : Role → List UserAction
  | .user => [.updateSelf, .view]
  | .admin => [.create, .updateSelf, .updateAny, .delete, .view]
  | .anonymous => [.view]

/-- `canUserAccess` of `src/unnamed/part_002`:
`userAccessModel[role].includes(action)`. -/
def canUserAccess (role : Role) (action : UserAction) : Bool :=
  (userAccessModel role).contains action

/-- The global action set, the union of all action literals. -/
def allActions : List UserAction :=
  [.create, .updateSelf, .updateAny, .delete, .view]

/-- The permission table as the association list of the object literal's
key/value pairs, used to make the object lookup's possible absence of an
entry explicit. -/
def userAccessModelEntries : List (Role × List UserAction) :=
  [(.user, [.updateSelf, .view]),
   (.admin, [.create, .updateSelf, .updateAny, .delete, .view]),
   (.anonymous, [.view])]

/-- The object indexing `userAccessModel[role]` with its potential error
branch explicit: `none` models an absent entry. -/
def lookupEntry (role : Role) : Option (List UserAction) :=
  userAccessModelEntries.lookup role

/-- `canUserAccess` with the error branch explicit: `none` would be
returned if the role had no entry in the table. -/
def canUserAccessChecked (role : Role) (action : UserAction) : Option Bool :=
  (lookupEntry role).map (fun entry => entry.contains action)

/-- Program state: the permission table is the only state the spec
recognises. -/
structure ProgState where
  table : Role → List UserAction

/-- The state at process start: the table as built by the object literal. -/
def initState : ProgState :=
  { table := userAccessModel }

/-- A call of `canUserAccess` seen as a state transformer: it reads the
table and returns the boolean together with the resulting state. -/
def canUserAccessCall (s : ProgState) (role : Role) (action : UserAction) :
    Bool × ProgState :=
  ((s.table role).contains action, s)

end TS

namespace Exercise

/-- The `userAccessModel` const object of
`src/exercises/02-roleBasedAccess.exercise.ts`. -/
def userAccessModel : TS.Role → List TS.UserAction
  | .user => [.updateSelf, .view]
  | .admin => [.create, .updateSelf, .updateAny, .delete, .view]
  | .anonymous => [.view]

/-- `canUserAccess` of `src/exercises/02-roleBasedAccess.exercise.ts`:
`userAccessModel[role].includes(action)` over the exercise file's table. -/
def canUserAccess (role : TS.Role) (action : TS.UserAction) : Bool :=
  (userAccessModel role).contains action

end Exercise

namespace TS

/-- `isValidEmail` of `src/unnamed/part_000`: `email.includes("@")`;
for the one-character needle `@` this is membership of the character
`@` in the string. -/
def isValidEmail (email : String) : Bool :=
  email.data.contains '@'

/-- The argument object of `createUser`: at runtime the opaque
`ValidEmail` brand is just the string. -/
structure CreateUserInput where
  email : String
deriving DecidableEq, Repr

/-- `createUser` of `src/unnamed/part_000`: returns its argument
(the pseudocode body). -/
def createUser (user : CreateUserInput) : CreateUserInput :=
  user

/-- The argument object of `onSubmit`. -/
structure SubmitValues where
  email : String
deriving DecidableEq, Repr

/-- `onSubmit` of `src/unnamed/part_000`: throws `Email is invalid` when
the email fails `isValidEmail`, otherwise passes the email on to
`createUser`.  The thrown error is the `Except.error` branch. -/
def onSubmit (values : SubmitValues) : Except String CreateUserInput :=
  if !isValidEmail values.email then
    .error "Email is invalid"
  else
    .ok (createUser { email := values.email })

/-- The shape of a user returned by the external `fetchUser`:
`firstName` and `lastName` are the fields the wrapper reads, `extra`
stands for all its remaining fields. -/
structure FetchedUser (ε : Type) where
  firstName : String
  lastName : String
  extra : ε
deriving Repr

/-- The intersection type `Awaited<ReturnType<typeof fetchUser>> &
\x7b fullName: string \x7d`. -/
structure UserWithFullName (ε : Type) where
  firstName : String
  lastName : String
  extra : ε
  fullName : String
deriving Repr

/-- `fetchUserWithFullName` of `src/unnamed/part_000`: awaits
`fetchUser(...args)` and spreads the result, adding
`fullName := firstName ++ " " ++ lastName`.  The external `fetchUser`
and its parameter list are abstract. -/
def fetchUserWithFullName {α ε : Type} (fetchUser : α → FetchedUser ε)
    (args : α) : UserWithFullName ε :=
  let user := fetchUser args
  { firstName := user.firstName
    lastName := user.lastName
    extra := user.extra
    fullName := user.firstName ++ " " ++ user.lastName }

/-- C1: for every role and action, `canUserAccess` returns `true` if and
only if the action appears in the permission table's entry for the role. -/
theorem canUserAccess_iff_mem (r : Role) (a : UserAction) :
    canUserAccess r a = true ↔ a ∈ userAccessModel r := by
  cases r <;> cases a <;> decide

/-- C1 witness: the equivalence evaluated at `admin` and `create`. -/
theorem canUserAccess_iff_mem_witness :
    canUserAccess .admin .create = true ↔
      UserAction.create ∈ userAccessModel .admin :=
  canUserAccess_iff_mem .admin .create

/-- C2: every role of the closed role set has an entry in the table, and
every entry is a non-empty subset of the global action set. -/
theorem userAccessModel_total_nonempty_subset (r : Role) :
    (lookupEntry r).isSome = true ∧
      userAccessModel r ≠ [] ∧
      ∀ a ∈ userAccessModel r, a ∈ allActions := by
  cases r <;> exact ⟨by decide, by decide, by decide⟩

/-- C2 witness: the invariant evaluated at the role `user`. -/
theorem userAccessModel_total_nonempty_subset_witness :
    (lookupEntry .user).isSome = true ∧
      userAccessModel .user ≠ [] ∧
      ∀ a ∈ userAccessModel .user, a ∈ allActions :=
  userAccessModel_total_nonempty_subset .user

/-- C3: on every valid pair of enum inputs, the lookup with its error
branch made explicit returns `some` of the boolean `canUserAccess`
computes: the error branch is unreachable and the function is total. -/
theorem canUserAccess_total_no_error (r : Role) (a : UserAction) :
    canUserAccessChecked r a = some (canUserAccess r a) := by
  cases r <;> cases a <;> rfl

/-- C3 witness: totality evaluated at `anonymous` and `create`. -/
theorem canUserAccess_total_no_error_witness :
    canUserAccessChecked .anonymous .create =
      some (canUserAccess .anonymous .create) :=
  canUserAccess_total_no_error .anonymous .create

/-- C4: `canUserAccess` is deterministic: a second call with the same
arguments, run in the state the first call left behind, returns the same
boolean as the first call. -/
theorem canUserAccess_deterministic (s : ProgState) (r : Role)
    (a : UserAction) :
    (canUserAccessCall ((canUserAccessCall s r a).2) r a).1 =
      (canUserAccessCall s r a).1 := by
  rfl

/-- C4 witness: two identical calls from the initial state on `admin`
and `view` agree. -/
theorem canUserAccess_deterministic_witness :
    (canUserAccessCall ((canUserAccessCall initState .admin .view).2)
        .admin .view).1 =
      (canUserAccessCall initState .admin .view).1 :=
  canUserAccess_deterministic initState .admin .view

/-- C5: `canUserAccess("admin", "delete")` returns `true`. -/
theorem canUserAccess_admin_delete : canUserAccess .admin .delete = true := by
  rfl

/-- C6: `canUserAccess("anonymous", "delete")` returns `false`. -/
theorem canUserAccess_anonymous_delete :
    canUserAccess .anonymous .delete = false := by
  rfl

/-- C7: a call of `canUserAccess` leaves the permission table unchanged,
and in the state built once at process start it computes exactly
`canUserAccess`: the table is never mutated. -/
theorem canUserAccess_no_side_effects (s : ProgState) (r : Role)
    (a : UserAction) :
    (canUserAccessCall s r a).2 = s ∧
      (canUserAccessCall initState r a).1 = canUserAccess r a := by
  exact ⟨rfl, rfl⟩

/-- C7 witness: framing evaluated at the initial state on `user` and
`view`. -/
theorem canUserAccess_no_side_effects_witness :
    (canUserAccessCall initState .user .view).2 = initState ∧
      (canUserAccessCall initState .user .view).1 =
        canUserAccess .user .view :=
  canUserAccess_no_side_effects initState .user .view

/-- C8: `onSubmit` throws `Email is invalid` exactly when the email does
not contain the character `@`; when it does, no error is raised and
exactly that email is passed through to `createUser`. -/
theorem onSubmit_spec (v : SubmitValues) :
    (onSubmit v = .error "Email is invalid" ↔
        v.email.data.contains '@' = false) ∧
      (v.email.data.contains '@' = true →
        onSubmit v = .ok (createUser { email := v.email })) := by
  cases h : v.email.data.contains '@' <;>
    simp_all [onSubmit, isValidEmail, createUser]

/-- C8 witness: the invalid branch at `no-at-sign` and the valid branch
at `a@b.com`. -/
theorem onSubmit_spec_witness :
    onSubmit { email := "no-at-sign" } = .error "Email is invalid" ∧
      onSubmit { email := "a@b.com" } =
        .ok (createUser { email := "a@b.com" }) :=
  ⟨(onSubmit_spec { email := "no-at-sign" }).1.mpr (by decide),
   (onSubmit_spec { email := "a@b.com" }).2 (by decide)⟩

/-- C9: the exercise file's `canUserAccess` and the unnamed file's
`canUserAccess` denote the same function on every role and action. -/
theorem canUserAccess_eq_exercise (r : Role) (a : UserAction) :
    canUserAccess r a = Exercise.canUserAccess r a := by
  cases r <;> cases a <;> rfl

/-- C9 witness: agreement evaluated at `admin` and `updateAny`. -/
theorem canUserAccess_eq_exercise_witness :
    canUserAccess .admin .updateAny =
      Exercise.canUserAccess .admin .updateAny :=
  canUserAccess_eq_exercise .admin .updateAny

/-- C10: for every `fetchUser` and argument list, `fetchUserWithFullName`
keeps every field of the fetched user unchanged and adds the single field
`fullName`, the first name, a space and the last name concatenated. -/
theorem fetchUserWithFullName_spec {α ε : Type}
    (fetchUser : α → FetchedUser ε) (args : α) :
    (fetchUserWithFullName fetchUser args).firstName =
        (fetchUser args).firstName ∧
      (fetchUserWithFullName fetchUser args).lastName =
        (fetchUser args).lastName ∧
      (fetchUserWithFullName fetchUser args).extra =
        (fetchUser args).extra ∧
      (fetchUserWithFullName fetchUser args).fullName =
        (fetchUser args).firstName ++ " " ++ (fetchUser args).lastName := by
  exact ⟨rfl, rfl, rfl, rfl⟩

/-- C10 witness: the wrapper evaluated on a concrete one-argument
fetcher returning `Ada Lovelace` with a numeric extra field. -/
theorem fetchUserWithFullName_spec_witness :
    (fetchUserWithFullName
        (fun (_ : Unit) => FetchedUser.mk "Ada" "Lovelace" (7 : Nat))
        ()).firstName = "Ada" ∧
      (fetchUserWithFullName
        (fun (_ : Unit) => FetchedUser.mk "Ada" "Lovelace" (7 : Nat))
        ()).lastName = "Lovelace" ∧
      (fetchUserWithFullName
        (fun (_ : Unit) => FetchedUser.mk "Ada" "Lovelace" (7 : Nat))
        ()).extra = 7 ∧
      (fetchUserWithFullName
        (fun (_ : Unit) => FetchedUser.mk "Ada" "Lovelace" (7 : Nat))
        ()).fullName = "Ada" ++ " " ++ "Lovelace" :=
  fetchUserWithFullName_spec
    (fun (_ : Unit) => FetchedUser.mk "Ada" "Lovelace" (7 : Nat)) ()

end TS
